import Mathlib

/-!
Shallow embedding of the LGU Malungon QR attendance system's core logic:
the scan ingestion path (`submitEmployee` in src/app/scanner/page.tsx),
session lifecycle (`startSession`/`endSession` in src/app/dashboard/page.tsx),
and the report aggregation code (`exportSelectedSession`/`exportMonthlyTrend`
in the reports module), together with proofs of the specification claims.

Timestamps are modelled as natural numbers (server-assigned, totally
ordered); strings keep their source rôle.  The hosted data platform's
unique-constrained insert and its SQL views are not part of the repository
sources; where a claim depends on them they are modelled from the spec and
marked as such in their doc comments.
-/

namespace LguAttendance

/-- JavaScript `String.prototype.trim()` as used throughout the source
(`empIdRaw.trim()`, `eventName.trim()`): strip whitespace from both ends. -/
def jsTrim (s : String) : String :=
  String.mk (((s.data.dropWhile Char.isWhitespace).reverse.dropWhile
      Char.isWhitespace).reverse)

/-- Check-in method, `"qr" | "manual"` in the source. -/
inductive Method where
  | qr
  | manual
deriving DecidableEq, Repr

/-- A row of the `employees` table (`EmployeeRow` in src/app/scanner/page.tsx). -/
structure EmployeeRow where
  employee_id : String
  full_name : String
  department : String
  is_active : Bool
deriving DecidableEq, Repr

/-- A row of the `attendance` table: the fields inserted by `submitEmployee`
plus the server-assigned `scanned_at` timestamp. -/
structure AttendanceRecord where
  session_id : String
  employee_id : String
  method : Method
  device_id : String
  scanned_at : Nat
deriving DecidableEq, Repr

/-- The persistent state the scanner page reads and writes: the roster
(`employees` table) and the attendance log (`attendance` table). -/
structure Store where
  employees : List EmployeeRow
  attendance : List AttendanceRecord
deriving DecidableEq, Repr

/-- Infrastructure faults a single submission may encounter, corresponding to
the three fallible round-trips in `submitEmployee`: the roster lookup erroring
(`empErr`), the insert failing for a reason other than the uniqueness
constraint (any `insErr` whose code is not 23505), and the follow-up fetch of
the existing record returning no row or no fields. -/
structure Faults where
  lookupErr : Bool
  insertErr : Bool
  fetchEmpty : Bool
deriving DecidableEq, Repr

/-- No infrastructure fault: the healthy-database run. -/
def Faults.none : Faults := ⟨false, false, false⟩

/-- Result classification of one submission, read off from the
`setLatest`/`setVisuals` calls in `submitEmployee`:
`recorded` is the `"good"` branch, `duplicate` the `"dup"` branch,
and the three `"bad"` branches are split by their note text. -/
inductive Outcome where
  | noActiveSession (empId : String)
  | lookupError (empId : String)
  | invalidEmployee (empId : String)
  | recorded (name dept empId : String) (time : Nat) (m : Method)
  | duplicate (name dept empId : String) (firstTime : Nat) (firstMethod : Method)
  | insertError (empId : String)
deriving DecidableEq, Repr

/-- The attendance rows of `st` for one `(session_id, employee_id)` pair
(the filter used both by the uniqueness constraint and by the
duplicate-lookup query). -/
def recordsFor (st : Store) (sid empId : String) : List AttendanceRecord :=
  st.attendance.filter (fun r => r.session_id == sid && r.employee_id == empId)

/-- The row returned by
`.order("scanned_at", { ascending: true }).limit(1).maybeSingle()`:
the first row of minimal `scanned_at` (none on an empty row set). -/
def earliestRecord : List AttendanceRecord → Option AttendanceRecord
  | [] => Option.none
  | r :: rs =>
      some (rs.foldl (fun b r2 => if r2.scanned_at < b.scanned_at then r2 else b) r)

/-- Modelled from the spec: the persistence collaborator's atomic
unique-constrained insert on `(session_id, employee_id)` (§6, §4.2 step 4).
The constraint itself lives in the hosted database's schema, which is not
under src/; the spec requires that the insert succeed exactly when no record
for the pair exists, and otherwise be rejected with the uniqueness-violation
code 23505.  Returns the updated store on success, `none` on a uniqueness
violation. -/
def insertAttendance (st : Store) (r : AttendanceRecord) : Option Store :=
  if (recordsFor st r.session_id r.employee_id).isEmpty then
    some { st with attendance := st.attendance ++ [r] }
  else
    Option.none

/-- `submitEmployee` from src/app/scanner/page.tsx, lines 205–337.
`sessionOpt` is the cached `activeSession` (its `session_id`), `now` the
server clock that stamps an inserted row.  Returns the classification
(`none` when the trimmed id is empty — the bare `return` on line 207,
which sets no result) and the resulting store. -/
def submitEmployee (st : Store) (sessionOpt : Option String) (empIdRaw : String)
    (method : Method) (deviceId : String) (now : Nat) (f : Faults) :
    Option Outcome × Store :=
  let empId := jsTrim empIdRaw
  if empId = "" then (Option.none, st)
  else
    match sessionOpt with
    | Option.none => (some (Outcome.noActiveSession empId), st)
    | some sid =>
      if f.lookupErr then (some (Outcome.lookupError empId), st)
      else
        match st.employees.find? (fun e => e.employee_id == empId) with
        | Option.none => (some (Outcome.invalidEmployee empId), st)
        | some emp =>
          if !emp.is_active then (some (Outcome.invalidEmployee empId), st)
          else if f.insertErr then (some (Outcome.insertError empId), st)
          else
            match insertAttendance st ⟨sid, empId, method, deviceId, now⟩ with
            | some st2 =>
                (some (Outcome.recorded emp.full_name emp.department
                        emp.employee_id now method), st2)
            | Option.none =>
                let existing :=
                  if f.fetchEmpty then Option.none
                  else earliestRecord (recordsFor st sid empId)
                let firstTime :=
                  match existing with
                  | some r => r.scanned_at
                  | Option.none => now
                let firstMethod :=
                  match existing with
                  | some r => r.method
                  | Option.none => Method.manual
                (some (Outcome.duplicate emp.full_name emp.department
                        emp.employee_id firstTime firstMethod), st)

/-- One queued submission in a race: its method and device. -/
structure Sub where
  method : Method
  deviceId : String
deriving DecidableEq, Repr

/-- Serialized execution of a list of submissions of the same employee id
into the same active session, with a healthy database and a strictly
increasing server clock.  The database serializes the racing inserts; any
interleaving is one such serialization order. -/
def runSubs (st : Store) (sid empIdRaw : String) (now : Nat) :
    List Sub → List (Option Outcome) × Store
  | [] => ([], st)
  | s :: rest =>
      let step := submitEmployee st (some sid) empIdRaw s.method s.deviceId now Faults.none
      let tail := runSubs step.2 sid empIdRaw (now + 1) rest
      (step.1 :: tail.1, tail.2)

/-- Does an outcome report a first-time recording? -/
def Outcome.isRecorded : Outcome → Bool
  | Outcome.recorded _ _ _ _ _ => true
  | _ => false

/-- Does an outcome report a duplicate? -/
def Outcome.isDuplicate : Outcome → Bool
  | Outcome.duplicate _ _ _ _ _ => true
  | _ => false

/-- The `scanned_at` timestamp an outcome shows to the device, when any. -/
def Outcome.timeOf : Outcome → Option Nat
  | Outcome.recorded _ _ _ t _ => some t
  | Outcome.duplicate _ _ _ t _ => some t
  | _ => Option.none

/-- The uniqueness invariant: at most one attendance record per
`(session_id, employee_id)` pair. -/
def UniquePairs (st : Store) : Prop :=
  ∀ sid empId, (recordsFor st sid empId).length ≤ 1

/-! ### Helper lemmas about the scan path -/

lemma recordsFor_snoc (emps : List EmployeeRow) (att : List AttendanceRecord)
    (r : AttendanceRecord) (sid empId : String) :
    recordsFor ⟨emps, att ++ [r]⟩ sid empId =
      recordsFor ⟨emps, att⟩ sid empId ++
        (if r.session_id == sid && r.employee_id == empId then [r] else []) := by
  simp only [recordsFor, List.filter_append]
  rcases h : (r.session_id == sid && r.employee_id == empId) with _ | _ <;>
    simp [List.filter, h]

/-- A successful submission with an empty prior record set for the pair:
the `"good"` branch of `submitEmployee`. -/
lemma submitEmployee_recorded (st : Store) (sid empIdRaw empId : String)
    (emp : EmployeeRow) (method : Method) (deviceId : String) (now : Nat)
    (htrim : jsTrim empIdRaw = empId) (hne : empId ≠ "")
    (hfind : st.employees.find? (fun e => e.employee_id == empId) = some emp)
    (hact : emp.is_active = true)
    (hrec : recordsFor st sid empId = []) :
    submitEmployee st (some sid) empIdRaw method deviceId now Faults.none =
      (some (Outcome.recorded emp.full_name emp.department emp.employee_id now method),
       ⟨st.employees, st.attendance ++ [⟨sid, empId, method, deviceId, now⟩]⟩) := by
  have hempty : (recordsFor st sid empId).isEmpty = true := by simp [hrec]
  simp [submitEmployee, htrim, hne, Faults.none, hfind, hact, insertAttendance, hempty]

/-- A submission whose pair already has records: the `"dup"` branch.  The
store is unchanged and the reported timestamp/method are those of the row
returned by the ascending-`scanned_at` limit-1 query. -/
lemma submitEmployee_duplicate (st : Store) (sid empIdRaw empId : String)
    (emp : EmployeeRow) (r : AttendanceRecord) (method : Method) (deviceId : String)
    (now : Nat)
    (htrim : jsTrim empIdRaw = empId) (hne : empId ≠ "")
    (hfind : st.employees.find? (fun e => e.employee_id == empId) = some emp)
    (hact : emp.is_active = true)
    (hrec : earliestRecord (recordsFor st sid empId) = some r)
    (hnonempty : recordsFor st sid empId ≠ []) :
    submitEmployee st (some sid) empIdRaw method deviceId now Faults.none =
      (some (Outcome.duplicate emp.full_name emp.department emp.employee_id
              r.scanned_at r.method), st) := by
  have hempty : (recordsFor st sid empId).isEmpty = false := by
    simpa [List.isEmpty_iff] using hnonempty
  simp [submitEmployee, htrim, hne, Faults.none, hfind, hact, insertAttendance,
    hempty, hrec]

/-- The minimising fold behind `earliestRecord` returns an element of the
list that is `scanned_at`-minimal. -/
lemma foldl_min_spec (r : AttendanceRecord) (rs : List AttendanceRecord) :
    (rs.foldl (fun b r2 => if r2.scanned_at < b.scanned_at then r2 else b) r) ∈ r :: rs ∧
    ∀ x ∈ r :: rs,
      (rs.foldl (fun b r2 => if r2.scanned_at < b.scanned_at then r2 else b) r).scanned_at
        ≤ x.scanned_at := by
  induction rs generalizing r with
  | nil => simp
  | cons a tl ih =>
      have step :
          (a :: tl).foldl (fun b r2 => if r2.scanned_at < b.scanned_at then r2 else b) r =
            tl.foldl (fun b r2 => if r2.scanned_at < b.scanned_at then r2 else b)
              (if a.scanned_at < r.scanned_at then a else r) := by
        simp [List.foldl_cons]
      rcases ih (if a.scanned_at < r.scanned_at then a else r) with ⟨hmem, hmin⟩
      constructor
      · rw [step]
        rcases List.mem_cons.1 hmem with h | h
        · rw [h]
          split
          · exact List.mem_cons_of_mem _ (List.mem_cons_self _ _)
          · exact List.mem_cons_self _ _
        · exact List.mem_cons_of_mem _ (List.mem_cons_of_mem _ h)
      · intro x hx
        rw [step]
        have hle :
            (tl.foldl (fun b r2 => if r2.scanned_at < b.scanned_at then r2 else b)
                (if a.scanned_at < r.scanned_at then a else r)).scanned_at ≤
              (if a.scanned_at < r.scanned_at then a else r).scanned_at :=
          hmin _ (List.mem_cons_self _ _)
        have hboth :
            (if a.scanned_at < r.scanned_at then a else r).scanned_at ≤ r.scanned_at ∧
            (if a.scanned_at < r.scanned_at then a else r).scanned_at ≤ a.scanned_at := by
          split <;> omega
        rcases List.mem_cons.1 hx with h | h
        · subst h
          omega
        · rcases List.mem_cons.1 h with h2 | h2
          · subst h2
            omega
          · exact hmin _ (List.mem_cons_of_mem _ h2)

/-- `earliestRecord` on a nonempty list yields a member with minimal
`scanned_at` — the "earliest existing record, ordered ascending". -/
lemma earliestRecord_spec (l : List AttendanceRecord) (hne : l ≠ []) :
    ∃ r, earliestRecord l = some r ∧ r ∈ l ∧
      ∀ x ∈ l, r.scanned_at ≤ x.scanned_at := by
  cases l with
  | nil => exact absurd rfl hne
  | cons a tl =>
      rcases foldl_min_spec a tl with ⟨hmem, hmin⟩
      exact ⟨_, rfl, hmem, hmin⟩

/-- Number of `Recorded` classifications in a list of results. -/
def countRecorded (os : List (Option Outcome)) : Nat :=
  os.countP (fun o => match o with | some oc => oc.isRecorded | _ => false)

/-- Number of `Duplicate` classifications in a list of results. -/
def countDuplicate (os : List (Option Outcome)) : Nat :=
  os.countP (fun o => match o with | some oc => oc.isDuplicate | _ => false)

/-- Once the pair has its single committed record `r`, every further
submission of the same employee id is told `Duplicate` with `r`'s
timestamp and method, and the store never changes. -/
lemma runSubs_allDup (st : Store) (sid empIdRaw empId : String)
    (emp : EmployeeRow) (r : AttendanceRecord)
    (htrim : jsTrim empIdRaw = empId) (hne : empId ≠ "")
    (hfind : st.employees.find? (fun e => e.employee_id == empId) = some emp)
    (hact : emp.is_active = true)
    (hrec : recordsFor st sid empId = [r]) :
    ∀ (subs : List Sub) (now : Nat),
      runSubs st sid empIdRaw now subs =
        (subs.map (fun _ => some (Outcome.duplicate emp.full_name emp.department
            emp.employee_id r.scanned_at r.method)), st) := by
  intro subs
  induction subs with
  | nil => intro now; simp [runSubs]
  | cons s rest ih =>
      intro now
      have hearliest : earliestRecord (recordsFor st sid empId) = some r := by
        rw [hrec]; simp [earliestRecord]
      have hstep := submitEmployee_duplicate st sid empIdRaw empId emp r s.method
        s.deviceId now htrim hne hfind hact hearliest (by rw [hrec]; simp)
      simp [runSubs, hstep, ih]

lemma countP_replicate {α : Type} (p : α → Bool) (b : α) (n : Nat) :
    (List.replicate n b).countP p = if p b then n else 0 := by
  induction n with
  | zero => simp
  | succ n ih =>
      rw [List.replicate_succ, List.countP_cons, ih]
      rcases h : p b with _ | _ <;> simp [h]

/-! ### Claim theorems for the scan ingestion path -/

/-- C1: for every `(session_id, employee_id)` pair at most one
`AttendanceRecord` ever exists; a serialized race of `N ≥ 2` submissions of
the same employee id into the same active session (any devices, methods and
serialization order) yields exactly one `Recorded` and `N − 1` `Duplicate`
outcomes, and every one of the `N` outcomes carries the `scanned_at`
timestamp of the single committed record. -/
theorem c1_unique_pair_single_winner
    (st : Store) (sid empIdRaw empId : String) (emp : EmployeeRow)
    (subs : List Sub) (now : Nat)
    (htrim : jsTrim empIdRaw = empId) (hne : empId ≠ "")
    (hfind : st.employees.find? (fun e => e.employee_id == empId) = some emp)
    (hact : emp.is_active = true)
    (hrec : recordsFor st sid empId = [])
    (hN : 2 ≤ subs.length)
    (hinv : UniquePairs st) :
    (recordsFor (runSubs st sid empIdRaw now subs).2 sid empId).length = 1 ∧
    UniquePairs (runSubs st sid empIdRaw now subs).2 ∧
    countRecorded (runSubs st sid empIdRaw now subs).1 = 1 ∧
    countDuplicate (runSubs st sid empIdRaw now subs).1 = subs.length - 1 ∧
    ∃ t, (∀ rr ∈ recordsFor (runSubs st sid empIdRaw now subs).2 sid empId,
            rr.scanned_at = t) ∧
         ∀ o ∈ (runSubs st sid empIdRaw now subs).1,
            ∃ oc, o = some oc ∧ oc.timeOf = some t := by
  cases subs with
  | nil => simp at hN
  | cons s rest =>
      have hstep := submitEmployee_recorded st sid empIdRaw empId emp s.method
        s.deviceId now htrim hne hfind hact hrec
      set r : AttendanceRecord := ⟨sid, empId, s.method, s.deviceId, now⟩ with hr
      set st2 : Store := ⟨st.employees, st.attendance ++ [r]⟩ with hst2
      have hrec2 : recordsFor st2 sid empId = [r] := by
        have := recordsFor_snoc st.employees st.attendance r sid empId
        simp only [hst2]
        rw [this]
        have hold : recordsFor ⟨st.employees, st.attendance⟩ sid empId = [] := hrec
        rw [hold]
        simp [hr]
      have hfind2 : st2.employees.find? (fun e => e.employee_id == empId) = some emp :=
        hfind
      have htail := runSubs_allDup st2 sid empIdRaw empId emp r htrim hne hfind2
        hact hrec2 rest (now + 1)
      have hrun : runSubs st sid empIdRaw now (s :: rest) =
          (some (Outcome.recorded emp.full_name emp.department emp.employee_id
              now s.method) ::
            rest.map (fun _ => some (Outcome.duplicate emp.full_name emp.department
              emp.employee_id r.scanned_at r.method)), st2) := by
        simp only [runSubs, hstep, htail]
      rw [hrun]
      have hrts : r.scanned_at = now := rfl
      refine ⟨by simp [hrec2], ?_, ?_, ?_, ?_⟩
      · intro sid2 emp2
        have hsnoc := recordsFor_snoc st.employees st.attendance r sid2 emp2
        simp only [hst2]
        rw [hsnoc]
        rcases hb : (r.session_id == sid2 && r.employee_id == emp2) with _ | _
        · simp only [hb, if_neg Bool.false_ne_true, List.append_nil]
          exact hinv sid2 emp2
        · simp only [hr, Bool.and_eq_true, beq_iff_eq] at hb
          rcases hb with ⟨h1, h2⟩
          subst h1; subst h2
          have hold : recordsFor ⟨st.employees, st.attendance⟩ sid empId = [] := hrec
          simp [hold]
      · simp [countRecorded, List.countP_cons, countP_replicate, Outcome.isRecorded]
      · simp [countDuplicate, List.countP_cons, countP_replicate, Outcome.isDuplicate]
      · refine ⟨now, ?_, ?_⟩
        · intro rr hrr
          rw [hrec2] at hrr
          simp at hrr
          rw [hrr]
        · intro o ho
          rcases List.mem_cons.1 ho with h | h
          · exact ⟨_, h, rfl⟩
          · rcases List.mem_map.1 h with ⟨_, _, hmap⟩
            exact ⟨_, hmap.symm, by simp [Outcome.timeOf, hrts]⟩

/-- Concrete roster entry used by the witnesses. -/
def empJuan : EmployeeRow := ⟨"EMP-001", "Juan", "HR", true⟩

/-- Concrete one-employee store with no attendance yet. -/
def storeW : Store := ⟨[empJuan], []⟩

/-- Concrete two-device race: one QR scan, one manual entry. -/
def subsW : List Sub := [⟨Method.qr, "d1"⟩, ⟨Method.manual, "d2"⟩]

/-- C1 witness: a concrete two-device race. -/
theorem c1_unique_pair_single_winner_witness :
    (jsTrim "EMP-001" = "EMP-001" ∧ ("EMP-001" : String) ≠ "" ∧
     storeW.employees.find? (fun e => e.employee_id == "EMP-001") = some empJuan ∧
     empJuan.is_active = true ∧
     recordsFor storeW "S1" "EMP-001" = [] ∧
     2 ≤ subsW.length ∧ UniquePairs storeW) ∧
    ((recordsFor (runSubs storeW "S1" "EMP-001" 10 subsW).2 "S1" "EMP-001").length = 1 ∧
     UniquePairs (runSubs storeW "S1" "EMP-001" 10 subsW).2 ∧
     countRecorded (runSubs storeW "S1" "EMP-001" 10 subsW).1 = 1 ∧
     countDuplicate (runSubs storeW "S1" "EMP-001" 10 subsW).1 = subsW.length - 1 ∧
     ∃ t, (∀ rr ∈ recordsFor (runSubs storeW "S1" "EMP-001" 10 subsW).2 "S1" "EMP-001",
             rr.scanned_at = t) ∧
          ∀ o ∈ (runSubs storeW "S1" "EMP-001" 10 subsW).1,
            ∃ oc, o = some oc ∧ oc.timeOf = some t) :=
  have huniq : UniquePairs storeW := by
    intro sid2 emp2; simp [recordsFor, storeW]
  ⟨⟨by decide, by decide, by decide, by decide, by decide, by decide, huniq⟩,
    c1_unique_pair_single_winner storeW "S1" "EMP-001" "EMP-001" empJuan subsW 10
      (by decide) (by decide) (by decide) (by decide) (by decide) (by decide) huniq⟩

/-- C2: when the attendance insert is rejected by the uniqueness constraint
(pgcode 23505), the submission returns `Duplicate` — not an error — carrying
the timestamp and method of the earliest existing record for the pair, i.e.
of a record whose `scanned_at` is minimal among the pair's records. -/
theorem c2_duplicate_carries_earliest
    (st : Store) (sid empIdRaw empId : String) (emp : EmployeeRow)
    (method : Method) (deviceId : String) (now : Nat)
    (htrim : jsTrim empIdRaw = empId) (hne : empId ≠ "")
    (hfind : st.employees.find? (fun e => e.employee_id == empId) = some emp)
    (hact : emp.is_active = true)
    (hnonempty : recordsFor st sid empId ≠ []) :
    ∃ r, r ∈ recordsFor st sid empId ∧
      (∀ x ∈ recordsFor st sid empId, r.scanned_at ≤ x.scanned_at) ∧
      submitEmployee st (some sid) empIdRaw method deviceId now Faults.none =
        (some (Outcome.duplicate emp.full_name emp.department emp.employee_id
            r.scanned_at r.method), st) := by
  rcases earliestRecord_spec _ hnonempty with ⟨r, hr, hmem, hmin⟩
  exact ⟨r, hmem, hmin,
    submitEmployee_duplicate st sid empIdRaw empId emp r method deviceId now
      htrim hne hfind hact hr hnonempty⟩

/-- Store holding one committed qr record for EMP-001 at time 5. -/
def storeDup : Store := ⟨[empJuan], [⟨"S1", "EMP-001", Method.qr, "d1", 5⟩]⟩

/-- C2 witness: resubmitting a recorded employee. -/
theorem c2_duplicate_carries_earliest_witness :
    (jsTrim "EMP-001" = "EMP-001" ∧ ("EMP-001" : String) ≠ "" ∧
     storeDup.employees.find? (fun e => e.employee_id == "EMP-001") = some empJuan ∧
     empJuan.is_active = true ∧
     recordsFor storeDup "S1" "EMP-001" ≠ []) ∧
    (∃ r, r ∈ recordsFor storeDup "S1" "EMP-001" ∧
      (∀ x ∈ recordsFor storeDup "S1" "EMP-001", r.scanned_at ≤ x.scanned_at) ∧
      submitEmployee storeDup (some "S1") "EMP-001" Method.manual "d2" 9 Faults.none =
        (some (Outcome.duplicate empJuan.full_name empJuan.department
            empJuan.employee_id r.scanned_at r.method), storeDup)) :=
  ⟨⟨by decide, by decide, by decide, by decide, by decide⟩,
    c2_duplicate_carries_earliest storeDup "S1" "EMP-001" "EMP-001" empJuan
      Method.manual "d2" 9 (by decide) (by decide) (by decide) (by decide)
      (by decide)⟩

/-- C3: classification order of one submission.  An empty trimmed id is a
caller-side no-op (no classification, no record); then a missing active
session yields `NoActiveSession` with no insert attempted; then a roster
miss or an inactive employee yields `InvalidEmployee` with no insert
attempted; only otherwise is the insert attempted, and then the single
produced outcome is `Recorded`, `Duplicate` or a system error. -/
theorem c3_classification_order
    (st : Store) (sessionOpt : Option String) (empIdRaw : String)
    (method : Method) (deviceId : String) (now : Nat) (f : Faults) :
    (jsTrim empIdRaw = "" →
      submitEmployee st sessionOpt empIdRaw method deviceId now f =
        (Option.none, st)) ∧
    (jsTrim empIdRaw ≠ "" → sessionOpt = Option.none →
      submitEmployee st sessionOpt empIdRaw method deviceId now f =
        (some (Outcome.noActiveSession (jsTrim empIdRaw)), st)) ∧
    (∀ sid, jsTrim empIdRaw ≠ "" → sessionOpt = some sid → f.lookupErr = false →
      (st.employees.find? (fun e => e.employee_id == jsTrim empIdRaw) = Option.none ∨
       (∃ e, st.employees.find? (fun e2 => e2.employee_id == jsTrim empIdRaw) = some e ∧
          e.is_active = false)) →
      submitEmployee st sessionOpt empIdRaw method deviceId now f =
        (some (Outcome.invalidEmployee (jsTrim empIdRaw)), st)) ∧
    (∀ sid e, jsTrim empIdRaw ≠ "" → sessionOpt = some sid → f.lookupErr = false →
      st.employees.find? (fun e2 => e2.employee_id == jsTrim empIdRaw) = some e →
      e.is_active = true →
      ∃ oc, (submitEmployee st sessionOpt empIdRaw method deviceId now f).1 = some oc ∧
        (oc.isRecorded = true ∨ oc.isDuplicate = true ∨
         oc = Outcome.insertError (jsTrim empIdRaw))) := by
  refine ⟨?_, ?_, ?_, ?_⟩
  · intro h
    simp [submitEmployee, h]
  · intro hne hsess
    subst hsess
    simp [submitEmployee, hne]
  · intro sid hne hsess hlk hmiss
    subst hsess
    rcases hmiss with h | ⟨e, he, hin⟩
    · simp [submitEmployee, hne, hlk, h]
    · simp [submitEmployee, hne, hlk, he, hin]
  · intro sid e hne hsess hlk hfind hact
    subst hsess
    by_cases hins : f.insertErr = true
    · refine ⟨Outcome.insertError (jsTrim empIdRaw), ?_, Or.inr (Or.inr rfl)⟩
      simp [submitEmployee, hne, hlk, hfind, hact, hins]
    · have hins2 : f.insertErr = false := by
        rcases h : f.insertErr with _ | _
        · rfl
        · exact absurd h hins
      rcases hrec : (recordsFor st sid (jsTrim empIdRaw)).isEmpty with _ | _
      · rcases hfe : f.fetchEmpty with _ | _
        · have hnonempty : recordsFor st sid (jsTrim empIdRaw) ≠ [] := by
            simpa [List.isEmpty_iff] using hrec
          rcases earliestRecord_spec _ hnonempty with ⟨r, hr, hmem, hmin⟩
          refine ⟨Outcome.duplicate e.full_name e.department e.employee_id
              r.scanned_at r.method, ?_, Or.inr (Or.inl rfl)⟩
          simp [submitEmployee, hne, hlk, hfind, hact, hins2, insertAttendance,
            hrec, hfe, hr]
        · refine ⟨Outcome.duplicate e.full_name e.department e.employee_id
              now Method.manual, ?_, Or.inr (Or.inl rfl)⟩
          simp [submitEmployee, hne, hlk, hfind, hact, hins2, insertAttendance,
            hrec, hfe]
      · refine ⟨Outcome.recorded e.full_name e.department e.employee_id now method,
          ?_, Or.inl rfl⟩
        simp [submitEmployee, hne, hlk, hfind, hact, hins2, insertAttendance, hrec]

/-- C3 witness: the four clauses at concrete inputs (a valid submission). -/
theorem c3_classification_order_witness :
    jsTrim "EMP-001" ≠ "" ∧ (some "S1" : Option String) = some "S1" ∧
    Faults.none.lookupErr = false ∧
    storeW.employees.find? (fun e2 => e2.employee_id == jsTrim "EMP-001") = some empJuan ∧
    empJuan.is_active = true ∧
    ∃ oc, (submitEmployee storeW (some "S1") "EMP-001" Method.qr "d1" 10
        Faults.none).1 = some oc ∧
      (oc.isRecorded = true ∨ oc.isDuplicate = true ∨
       oc = Outcome.insertError (jsTrim "EMP-001")) :=
  ⟨by decide, rfl, by decide, by decide, by decide,
    (c3_classification_order storeW (some "S1") "EMP-001" Method.qr "d1" 10
        Faults.none).2.2.2 "S1" empJuan (by decide) rfl (by decide) (by decide)
      (by decide)⟩

/-- C10 (implicit): on the duplicate path, if the follow-up query for the
earliest existing record returns no row or no fields, the submission still
produces `Duplicate`, falling back to the current time as the original
timestamp and to `manual` as the original method. -/
theorem c10_duplicate_fetch_fallback
    (st : Store) (sid empIdRaw empId : String) (emp : EmployeeRow)
    (method : Method) (deviceId : String) (now : Nat)
    (htrim : jsTrim empIdRaw = empId) (hne : empId ≠ "")
    (hfind : st.employees.find? (fun e => e.employee_id == empId) = some emp)
    (hact : emp.is_active = true)
    (hnonempty : recordsFor st sid empId ≠ []) :
    submitEmployee st (some sid) empIdRaw method deviceId now ⟨false, false, true⟩ =
      (some (Outcome.duplicate emp.full_name emp.department emp.employee_id
          now Method.manual), st) := by
  have hempty : (recordsFor st sid empId).isEmpty = false := by
    simpa [List.isEmpty_iff] using hnonempty
  simp [submitEmployee, htrim, hne, hfind, hact, insertAttendance, hempty]

/-- C10 witness: duplicate submission whose earliest-record fetch is empty. -/
theorem c10_duplicate_fetch_fallback_witness :
    (jsTrim "EMP-001" = "EMP-001" ∧ ("EMP-001" : String) ≠ "" ∧
     storeDup.employees.find? (fun e => e.employee_id == "EMP-001") = some empJuan ∧
     empJuan.is_active = true ∧ recordsFor storeDup "S1" "EMP-001" ≠ []) ∧
    submitEmployee storeDup (some "S1") "EMP-001" Method.qr "d2" 9
        ⟨false, false, true⟩ =
      (some (Outcome.duplicate empJuan.full_name empJuan.department
          empJuan.employee_id 9 Method.manual), storeDup) :=
  ⟨⟨by decide, by decide, by decide, by decide, by decide⟩,
    c10_duplicate_fetch_fallback storeDup "S1" "EMP-001" "EMP-001" empJuan
      Method.qr "d2" 9 (by decide) (by decide) (by decide) (by decide) (by decide)⟩

/-! ### Session lifecycle (src/app/dashboard/page.tsx) -/

/-- `status ∈ {active, ended}` of a `sessions` row. -/
inductive SessionStatus where
  | active
  | ended
deriving DecidableEq, Repr

/-- A row of the `sessions` table. -/
structure SessionRow where
  session_id : String
  event_name : String
  status : SessionStatus
  started_at : Nat
  ended_at : Option Nat
deriving DecidableEq, Repr

/-- The supabase update issued by `endSession` (dashboard lines 216–220):
`update({status:"ended", ended_at: now}).eq("session_id", sid).eq("status","active")`,
i.e. mutate exactly the rows matching both filters.  A zero-row match is not
an error for this update. -/
def endSessionUpdate (sessions : List SessionRow) (sid : String) (now : Nat) :
    List SessionRow :=
  sessions.map (fun s =>
    if s.session_id == sid && s.status == SessionStatus.active then
      { s with status := SessionStatus.ended, ended_at := some now }
    else s)

/-- How one `endSession` call terminates, read off from the code:
the early `return` when no active session is cached, the alert branch on a
database error, and the no-error path (which proceeds to the audit log and
the refresh). -/
inductive EndResult where
  | noCachedSession
  | dbError
  | ok
deriving DecidableEq, Repr

/-- `endSession` from src/app/dashboard/page.tsx, lines 211–240.  `cached` is
the locally cached `activeSession` id (possibly stale), `dbErr` an
infrastructure fault of the update round-trip. -/
def endSession (sessions : List SessionRow) (cached : Option String) (now : Nat)
    (dbErr : Bool) : EndResult × List SessionRow :=
  match cached with
  | Option.none => (EndResult.noCachedSession, sessions)
  | some sid =>
      if dbErr then (EndResult.dbError, sessions)
      else (EndResult.ok, endSessionUpdate sessions sid now)

/-- Outcome of `startSession` (dashboard lines 175–209): the empty-name
alert, the insert-error alert, and the no-error path returning the new id. -/
inductive StartResult where
  | invalidInput
  | conflictError
  | ok (sid : String)
deriving DecidableEq, Repr

/-- Modelled from the spec: the `sessions` insert with its
single-active-session constraint (§3 invariant, §4.1).  The constraint
itself is enforced by the hosted database's schema, which is not under
src/; per the spec the insert of a new `status=active` row is rejected with
a conflict when a session is already active, and otherwise creates the row
with `started_at` server-assigned to now. -/
def insertSession (sessions : List SessionRow) (name sid : String) (now : Nat) :
    Option (List SessionRow) :=
  if sessions.any (fun s => s.status == SessionStatus.active) then Option.none
  else some (sessions ++ [⟨sid, name, SessionStatus.active, now, Option.none⟩])

/-- `startSession` from src/app/dashboard/page.tsx, lines 175–209. -/
def startSession (sessions : List SessionRow) (eventName sid : String) (now : Nat) :
    StartResult × List SessionRow :=
  let name := jsTrim eventName
  if name = "" then (StartResult.invalidInput, sessions)
  else
    match insertSession sessions name sid now with
    | Option.none => (StartResult.conflictError, sessions)
    | some ss => (StartResult.ok sid, ss)

/-- The single-active-session invariant on the sessions table. -/
def AtMostOneActive (sessions : List SessionRow) : Prop :=
  sessions.countP (fun s => s.status == SessionStatus.active) ≤ 1

/-- Concrete already-ended session used by the C4 counterexample. -/
def endedS1 : SessionRow := ⟨"S1", "Flag Ceremony", SessionStatus.ended, 0, some 5⟩

/-- C4 counterexample: ending the already-ended session "S1" (with a stale
cache still naming it) terminates on the no-error path — the same path as a
successful end — and leaves the table unchanged.  It is silently accepted:
there is no NotFound/ConflictError report, refuting the claim that ending a
non-active session fails with such an error. -/
theorem c4_counterexample :
    endSession [endedS1] (some "S1") 10 false = (EndResult.ok, [endedS1]) ∧
    EndResult.ok ≠ EndResult.noCachedSession ∧
    EndResult.ok ≠ EndResult.dbError := by
  refine ⟨?_, by decide, by decide⟩
  decide

/-- C4 amended: calling `endSession` for a session id that is not currently
active changes no state (the filtered update matches no row), but it is
reported as a plain success (`ok`), not as a NotFound/ConflictError. -/
theorem c4_end_inactive_silent_noop
    (sessions : List SessionRow) (sid : String) (now : Nat)
    (h : ∀ s ∈ sessions, s.session_id = sid → s.status ≠ SessionStatus.active) :
    endSession sessions (some sid) now false = (EndResult.ok, sessions) := by
  simp only [endSession, if_neg Bool.false_ne_true]
  refine Prod.ext rfl ?_
  show endSessionUpdate sessions sid now = sessions
  unfold endSessionUpdate
  induction sessions with
  | nil => rfl
  | cons s tl ih =>
      have hs := h s (List.mem_cons_self _ _)
      have htl : ∀ s2 ∈ tl, s2.session_id = sid → s2.status ≠ SessionStatus.active :=
        fun s2 h2 => h s2 (List.mem_cons_of_mem _ h2)
      have hcond : (s.session_id == sid && s.status == SessionStatus.active) = false := by
        rcases hb : (s.session_id == sid) with _ | _
        · simp
        · have : s.session_id = sid := by simpa [beq_iff_eq] using hb
          have hne := hs this
          simp [beq_iff_eq, hne]
      simp only [List.map_cons, hcond, if_neg Bool.false_ne_true]
      rw [ih htl]

/-- C4 witness: one ended session and one active session with another id. -/
theorem c4_end_inactive_silent_noop_witness :
    (∀ s ∈ [endedS1, SessionRow.mk "S2" "Raising" SessionStatus.active 7 Option.none],
        s.session_id = "S1" → s.status ≠ SessionStatus.active) ∧
    endSession [endedS1, SessionRow.mk "S2" "Raising" SessionStatus.active 7 Option.none]
        (some "S1") 10 false =
      (EndResult.ok,
       [endedS1, SessionRow.mk "S2" "Raising" SessionStatus.active 7 Option.none]) :=
  ⟨by decide,
    c4_end_inactive_silent_noop
      [endedS1, SessionRow.mk "S2" "Raising" SessionStatus.active 7 Option.none]
      "S1" 10 (by decide)⟩

/-- C5: `startSession` rejects an empty trimmed event name with
`InvalidInput`, rejects a start while a session is active with
`ConflictError` leaving the whole sessions table (hence every field of the
existing active session) unchanged, and on success appends a new session
with `status=active` and `started_at=now`; the at-most-one-active invariant
is preserved, and after a successful start exactly one session is active. -/
theorem c5_start_session
    (sessions : List SessionRow) (eventName sid : String) (now : Nat) :
    (jsTrim eventName = "" →
      startSession sessions eventName sid now = (StartResult.invalidInput, sessions)) ∧
    (jsTrim eventName ≠ "" →
      sessions.any (fun s => s.status == SessionStatus.active) = true →
      startSession sessions eventName sid now = (StartResult.conflictError, sessions)) ∧
    (jsTrim eventName ≠ "" →
      sessions.any (fun s => s.status == SessionStatus.active) = false →
      startSession sessions eventName sid now =
        (StartResult.ok sid,
         sessions ++ [⟨sid, jsTrim eventName, SessionStatus.active, now, Option.none⟩]) ∧
      (startSession sessions eventName sid now).2.countP
          (fun s => s.status == SessionStatus.active) = 1) ∧
    (AtMostOneActive sessions → AtMostOneActive (startSession sessions eventName sid now).2) := by
  refine ⟨?_, ?_, ?_, ?_⟩
  · intro h
    simp [startSession, h]
  · intro hne hact
    simp [startSession, hne, insertSession, hact]
  · intro hne hact
    have hzero : sessions.countP (fun s => s.status == SessionStatus.active) = 0 := by
      rw [List.countP_eq_zero]
      intro a ha
      have := List.any_eq_false.1 hact a ha
      simpa using this
    constructor
    · simp [startSession, hne, insertSession, hact]
    · simp [startSession, hne, insertSession, hact, List.countP_append,
        List.countP_cons, hzero]
  · intro hinv
    by_cases hname : jsTrim eventName = ""
    · simp [startSession, hname]
      exact hinv
    · rcases hact : sessions.any (fun s => s.status == SessionStatus.active) with _ | _
      · have hzero : sessions.countP (fun s => s.status == SessionStatus.active) = 0 := by
          rw [List.countP_eq_zero]
          intro a ha
          have := List.any_eq_false.1 hact a ha
          simpa using this
        simp [startSession, hname, insertSession, hact, AtMostOneActive,
          List.countP_append, List.countP_cons, hzero]
      · simp [startSession, hname, insertSession, hact]
        exact hinv

/-- C5 witness: starting over an empty table, a fresh name and id. -/
theorem c5_start_session_witness :
    (jsTrim "Flag Ceremony" ≠ "" ∧
     ([] : List SessionRow).any (fun s => s.status == SessionStatus.active) = false) ∧
    (startSession [] "Flag Ceremony" "S1" 3 =
      (StartResult.ok "S1",
       [⟨"S1", jsTrim "Flag Ceremony", SessionStatus.active, 3, Option.none⟩]) ∧
     (startSession [] "Flag Ceremony" "S1" 3).2.countP
        (fun s => s.status == SessionStatus.active) = 1) :=
  ⟨⟨by decide, by decide⟩,
    (c5_start_session [] "Flag Ceremony" "S1" 3).2.2.1 (by decide) (by decide)⟩

/-! ### Session report: present/absent partition (exportSelectedSession) -/

/-- A row of `v_session_raw_attendance` as selected by the export
(`employee_id, full_name, department, method, recorded_at`). -/
structure RawRow where
  employee_id : String
  full_name : String
  department : String
  method : Method
  recorded_at : Nat
deriving DecidableEq, Repr

/-- Modelled from the spec: the `v_session_raw_attendance` view — the
session's attendance records enriched with the employee's name and
department (§6 export surface, sheet 2 "raw present records").  The view is
part of the database schema, which is not under src/. -/
def sessionRawAttendance (st : Store) (sid : String) : List RawRow :=
  (st.attendance.filter (fun r => r.session_id == sid)).map (fun r =>
    match st.employees.find? (fun e => e.employee_id == r.employee_id) with
    | some e => ⟨r.employee_id, e.full_name, e.department, r.method, r.scanned_at⟩
    | Option.none => ⟨r.employee_id, "", "", r.method, r.scanned_at⟩)

/-- `presentIds` from `exportSelectedSession` (lines 171–173): the ids of
the raw attendance rows. -/
def presentIds (raw : List RawRow) : List String :=
  raw.map (fun r => r.employee_id)

/-- The `employees` query of the export: `.eq("is_active", true)`. -/
def activeRoster (st : Store) : List EmployeeRow :=
  st.employees.filter (fun e => e.is_active)

/-- `absent` from `exportSelectedSession` (lines 175–177): active employees
whose id is not among the present ids. -/
def absentOf (raw : List RawRow) (actives : List EmployeeRow) : List EmployeeRow :=
  actives.filter (fun e => !(presentIds raw).contains e.employee_id)

/-- Roster state after EMP-001 was recorded in session S1 and then
deactivated by a masterlist re-upload: the record remains (append-only),
the roster no longer lists EMP-001 as active. -/
def storeDeact : Store :=
  ⟨[⟨"EMP-001", "Juan", "HR", false⟩, ⟨"EMP-002", "Maria", "ENG", true⟩],
   [⟨"S1", "EMP-001", Method.qr, "d1", 5⟩]⟩

/-- C6 counterexample: in `storeDeact`'s session report, EMP-001 is in the
Present set (its attendance row exists) but not on the active roster, so
Present ∪ Absent strictly exceeds the active roster — the two sets do not
partition it. -/
theorem c6_counterexample :
    "EMP-001" ∈ presentIds (sessionRawAttendance storeDeact "S1") ∧
    "EMP-001" ∉ (activeRoster storeDeact).map (fun e => e.employee_id) ∧
    "EMP-001" ∉ (absentOf (sessionRawAttendance storeDeact "S1")
        (activeRoster storeDeact)).map (fun e => e.employee_id) := by
  refine ⟨?_, ?_, ?_⟩ <;> decide

/-- C6 amended: Present and Absent are disjoint and every active employee
lands in exactly one of them; Absent is exactly the active roster minus the
present ids; and whenever every present id is still on the active roster,
Present ∪ Absent equals the active roster exactly — but a recorded employee
who has since been deactivated is in Present and not on the roster, so the
union can strictly exceed the active roster. -/
theorem c6_partition (raw : List RawRow) (actives : List EmployeeRow) :
    (∀ e ∈ actives,
      (e.employee_id ∈ presentIds raw ∧ e ∉ absentOf raw actives) ∨
      (e.employee_id ∉ presentIds raw ∧ e ∈ absentOf raw actives)) ∧
    (∀ e ∈ absentOf raw actives, e ∈ actives ∧ e.employee_id ∉ presentIds raw) ∧
    ((∀ pid ∈ presentIds raw, pid ∈ actives.map (fun e => e.employee_id)) →
      ∀ x, (x ∈ presentIds raw ∨
            x ∈ (absentOf raw actives).map (fun e => e.employee_id)) ↔
           x ∈ actives.map (fun e => e.employee_id)) := by
  have habs : ∀ e, e ∈ absentOf raw actives ↔
      (e ∈ actives ∧ e.employee_id ∉ presentIds raw) := by
    intro e
    simp [absentOf, List.mem_filter, List.contains_iff_exists_mem_beq, beq_iff_eq]
  refine ⟨?_, ?_, ?_⟩
  · intro e he
    by_cases hp : e.employee_id ∈ presentIds raw
    · left
      exact ⟨hp, fun hcontra => ((habs e).1 hcontra).2 hp⟩
    · right
      exact ⟨hp, (habs e).2 ⟨he, hp⟩⟩
  · intro e he
    exact (habs e).1 he
  · intro hsub x
    constructor
    · intro hx
      rcases hx with hx | hx
      · exact hsub x hx
      · rcases List.mem_map.1 hx with ⟨e, he, hex⟩
        rcases (habs e).1 he with ⟨hea, _⟩
        exact List.mem_map.2 ⟨e, hea, hex⟩
    · intro hx
      rcases List.mem_map.1 hx with ⟨e, he, hex⟩
      by_cases hp : e.employee_id ∈ presentIds raw
      · left
        rw [← hex]
        exact hp
      · right
        exact List.mem_map.2 ⟨e, (habs e).2 ⟨he, hp⟩, hex⟩

/-- C6 witness: a healthy report where every present employee is still
active — there the two sets partition the roster exactly. -/
theorem c6_partition_witness :
    (∀ pid ∈ presentIds (sessionRawAttendance storeDup "S1"),
        pid ∈ (activeRoster storeDup).map (fun e => e.employee_id)) ∧
    (∀ x, (x ∈ presentIds (sessionRawAttendance storeDup "S1") ∨
           x ∈ (absentOf (sessionRawAttendance storeDup "S1")
                  (activeRoster storeDup)).map (fun e => e.employee_id)) ↔
          x ∈ (activeRoster storeDup).map (fun e => e.employee_id)) :=
  ⟨by decide,
    (c6_partition (sessionRawAttendance storeDup "S1") (activeRoster storeDup)).2.2
      (by decide)⟩

/-! ### Rates and the monthly average (pct, exportMonthlyTrend) -/

/-- JavaScript `Math.round`: round half toward positive infinity,
`Math.round(x) = ⌊x + 1/2⌋`. -/
def jsRound (q : ℚ) : ℤ := ⌊q + 1 / 2⌋

/-- `pct` from src/app/dashboard/page.tsx lines 46–49:
`if (!total) return 0; return Math.round((present / total) * 1000) / 10;`. -/
def pct (present total : ℕ) : ℚ :=
  if total = 0 then 0
  else (jsRound ((present : ℚ) / (total : ℚ) * 1000) : ℚ) / 10

/-- The inline per-session department rate of `exportMonthlyTrend`
(lines 326 and 375): `total ? Math.round((present / total) * 1000) / 10 : 0`. -/
def deptSessionRate (total present : ℕ) : ℚ :=
  if total = 0 then 0
  else (jsRound ((present : ℚ) / (total : ℚ) * 1000) : ℚ) / 10

/-- Modelled from the spec: the `dept_rate` column of the
`v_office_stats` view (`departmentStats`, §4.3):
`rate = round(present/total * 1000)/10`, `total=0 ⇒ rate=0`.  The view is
part of the database schema, which is not under src/. -/
def departmentStatsRate (present total : ℕ) : ℚ :=
  if total = 0 then 0
  else (jsRound ((present : ℚ) / (total : ℚ) * 1000) : ℚ) / 10

/-- The `sumRate`/`count` accumulation of `exportMonthlyTrend`
(lines 364–387): for one department with roster size `total`, fold over the
month's sessions (given as per-session distinct-present counts), then
`avg = count ? Math.round((sumRate / count) * 10) / 10 : 0`. -/
def monthlyAvgFold (total : ℕ) (presents : List ℕ) : ℚ :=
  let acc := presents.foldl
    (fun a p => (a.1 + deptSessionRate total p, a.2 + 1)) ((0 : ℚ), (0 : ℕ))
  if acc.2 = 0 then 0 else (jsRound (acc.1 / (acc.2 : ℚ) * 10) : ℚ) / 10

/-- The spec's reading of the monthly average: the unweighted arithmetic
mean of the per-session rates, rounded to one decimal (0 for an empty
month). -/
def unweightedMeanRounded (rates : List ℚ) : ℚ :=
  if rates.length = 0 then 0
  else (jsRound (rates.sum / (rates.length : ℚ) * 10) : ℚ) / 10

lemma monthlyAvgFold_acc (total : ℕ) (presents : List ℕ) (a : ℚ) (n : ℕ) :
    presents.foldl (fun a2 p => (a2.1 + deptSessionRate total p, a2.2 + 1)) (a, n) =
      (a + (presents.map (deptSessionRate total)).sum, n + presents.length) := by
  induction presents generalizing a n with
  | nil => simp
  | cons p tl ih =>
      simp only [List.foldl_cons, ih, List.map_cons, List.sum_cons, List.length_cons,
        Prod.mk.injEq]
      constructor
      · ring
      · omega

/-- C7: the monthly per-department average equals the unweighted mean of
the per-session rates over all sessions of the month, rounded to one
decimal — not a ratio recomputed from combined counts; in particular a
department of 2 with presents 1 and 2 (rates 50.0 and 100.0) averages
exactly 75.0. -/
theorem c7_monthly_average_unweighted_mean :
    (∀ (total : ℕ) (presents : List ℕ),
      monthlyAvgFold total presents =
        unweightedMeanRounded (presents.map (deptSessionRate total))) ∧
    deptSessionRate 2 1 = 50 ∧ deptSessionRate 2 2 = 100 ∧
    monthlyAvgFold 2 [1, 2] = 75 := by
  have hfold : ∀ (total : ℕ) (presents : List ℕ),
      monthlyAvgFold total presents =
        unweightedMeanRounded (presents.map (deptSessionRate total)) := by
    intro total presents
    simp only [monthlyAvgFold, unweightedMeanRounded, monthlyAvgFold_acc, zero_add,
      Nat.zero_add, List.length_map]
  refine ⟨hfold, ?_, ?_, ?_⟩
  · norm_num [deptSessionRate, jsRound]
  · norm_num [deptSessionRate, jsRound]
  · rw [hfold]
    norm_num [deptSessionRate, jsRound, unweightedMeanRounded]

/-- C8: the department rate (dashboard `pct`, the monthly inline rate, and
the spec-modelled `departmentStats` view column) is
`round(present/total*1000)/10` with `total = 0 ⇒ rate = 0`, and whenever
`present ≤ total` the rate lies in `[0, 100]`. -/
theorem c8_rate_formula_and_bounds (present total : ℕ) :
    departmentStatsRate present total = pct present total ∧
    deptSessionRate total present = pct present total ∧
    (total = 0 → pct present total = 0) ∧
    (present ≤ total → 0 ≤ pct present total ∧ pct present total ≤ 100) := by
  refine ⟨rfl, rfl, ?_, ?_⟩
  · intro h
    simp [pct, h]
  · intro hle
    by_cases h0 : total = 0
    · simp [pct, h0]
    · have htpos : (0 : ℚ) < (total : ℚ) := by
        exact_mod_cast Nat.pos_of_ne_zero h0
      have hratio : (present : ℚ) / (total : ℚ) ≤ 1 := by
        rw [div_le_one htpos]
        exact_mod_cast hle
      have hratio0 : (0 : ℚ) ≤ (present : ℚ) / (total : ℚ) := by
        positivity
      have hlow : (0 : ℤ) ≤ jsRound ((present : ℚ) / (total : ℚ) * 1000) := by
        rw [jsRound, Int.le_floor]
        push_cast
        nlinarith
      have hhigh : jsRound ((present : ℚ) / (total : ℚ) * 1000) ≤ 1000 := by
        have hfl : ⌊(present : ℚ) / (total : ℚ) * 1000 + 1 / 2⌋ < (1001 : ℤ) :=
          Int.floor_lt.2 (by push_cast; nlinarith)
        rw [jsRound]
        omega
      constructor
      · simp only [pct, if_neg h0]
        have : (0 : ℚ) ≤ (jsRound ((present : ℚ) / (total : ℚ) * 1000) : ℚ) := by
          exact_mod_cast hlow
        linarith
      · simp only [pct, if_neg h0]
        have : (jsRound ((present : ℚ) / (total : ℚ) * 1000) : ℚ) ≤ 1000 := by
          exact_mod_cast hhigh
        linarith

/-- C8 witness: the rate of 1 present out of 2 is bounded as claimed. -/
theorem c8_rate_formula_and_bounds_witness :
    (0 : ℕ) = 0 ∧ pct 3 0 = 0 ∧
    1 ≤ 2 ∧ (0 ≤ pct 1 2 ∧ pct 1 2 ≤ 100) :=
  ⟨rfl, (c8_rate_formula_and_bounds 3 0).2.2.1 rfl,
   by decide, (c8_rate_formula_and_bounds 1 2).2.2.2 (by decide)⟩

/-! ### Department stats presentation order (dashboard lines 131–137,
reports lines 145–147) -/

/-- A row of `v_office_stats` as used by the dashboard and exports. -/
structure OfficeStat where
  department : String
  dept_total : ℕ
  dept_present : ℕ
  dept_rate : ℚ
deriving DecidableEq, Repr

/-- The JS comparator
`(a, b) => b.dept_rate - a.dept_rate || b.dept_present - a.dept_present`:
`a` sorts strictly before `b` exactly when the comparator value is
negative, i.e. `b.rate < a.rate`, or the rates tie and
`b.present < a.present`. -/
def statLt (a b : OfficeStat) : Bool :=
  decide (b.dept_rate < a.dept_rate) ||
    (decide (b.dept_rate = a.dept_rate) && decide (b.dept_present < a.dept_present))

/-- Stable insertion: `x` goes in front of the first element not strictly
before it, so elements tied with `x` that arrived earlier stay earlier —
the stability contract of JS `Array.prototype.sort`. -/
def insertStat (x : OfficeStat) : List OfficeStat → List OfficeStat
  | [] => [x]
  | y :: ys => if statLt y x then y :: insertStat x ys else x :: y :: ys

/-- `officeStats.slice().sort(cmp)`: a stable sort by the comparator. -/
def sortStats (l : List OfficeStat) : List OfficeStat :=
  l.foldr insertStat []

lemma statLt_asymm (a b : OfficeStat) (h : statLt a b = true) : statLt b a = false := by
  simp only [statLt, Bool.or_eq_true, Bool.and_eq_true, decide_eq_true_eq] at h
  simp only [statLt, Bool.or_eq_false_iff, Bool.and_eq_false_iff,
    decide_eq_false_iff_not, not_lt]
  rcases h with h | ⟨h1, h2⟩
  · exact ⟨le_of_lt h, Or.inl (ne_of_gt h)⟩
  · exact ⟨le_of_eq h1, Or.inr (le_of_lt h2)⟩

lemma statLt_false_trans (a b c : OfficeStat)
    (hba : statLt b a = false) (hcb : statLt c b = false) : statLt c a = false := by
  simp only [statLt, Bool.or_eq_false_iff, Bool.and_eq_false_iff,
    decide_eq_false_iff_not, not_lt] at hba hcb ⊢
  rcases hba with ⟨hr1, h1⟩
  rcases hcb with ⟨hr2, h2⟩
  refine ⟨le_trans hr2 hr1, ?_⟩
  rcases h1 with h1 | h1
  · left
    intro heq
    exact h1 (by linarith)
  · rcases h2 with h2 | h2
    · left
      intro heq
      exact h2 (by linarith)
    · right
      exact le_trans h2 h1

lemma insertStat_perm (x : OfficeStat) (l : List OfficeStat) :
    (insertStat x l).Perm (x :: l) := by
  induction l with
  | nil => simp [insertStat]
  | cons y ys ih =>
      rw [insertStat]
      split
      · exact (ih.cons y).trans (List.Perm.swap x y ys)
      · exact List.Perm.refl _

lemma insertStat_sorted (x : OfficeStat) (l : List OfficeStat)
    (h : l.Pairwise (fun a b => statLt b a = false)) :
    (insertStat x l).Pairwise (fun a b => statLt b a = false) := by
  induction l with
  | nil => simp [insertStat]
  | cons y ys ih =>
      rw [insertStat]
      rcases List.pairwise_cons.1 h with ⟨hy, hys⟩
      split
      · rename_i hlt
        refine List.pairwise_cons.2 ⟨?_, ih hys⟩
        intro z hz
        have hz2 := (insertStat_perm x ys).mem_iff.1 hz
        rcases List.mem_cons.1 hz2 with hz3 | hz3
        · subst hz3
          exact statLt_asymm y z hlt
        · exact hy z hz3
      · rename_i hnlt
        have hxy : statLt y x = false := by
          rcases hb : statLt y x with _ | _
          · rfl
          · exact absurd hb hnlt
        refine List.pairwise_cons.2 ⟨?_, h⟩
        intro z hz
        rcases List.mem_cons.1 hz with hz2 | hz2
        · subst hz2
          exact hxy
        · exact statLt_false_trans x y z hxy (hy z hz2)

/-- The fully-tied pair used against the department-name tie-break:
identical rate and present count, departments "B" and "A". -/
def statB : OfficeStat := ⟨"B", 2, 1, 50⟩

/-- See `statB`. -/
def statA : OfficeStat := ⟨"A", 2, 1, 50⟩

/-- C9 counterexample: on the input `[B, A]` whose two rows tie on rate and
present count, the comparator returns 0 and the stable sort keeps the input
order `[B, A]` — not the department-name order `[A, B]`.  So ties are not
broken by department name and the presented order depends on the input
(query) order, refuting the claimed full determinism. -/
theorem c9_counterexample :
    sortStats [statB, statA] = [statB, statA] ∧
    statB.dept_rate = statA.dept_rate ∧
    statB.dept_present = statA.dept_present ∧
    statA.department.data < statB.department.data := by
  refine ⟨?_, rfl, rfl, by decide⟩
  have h : statLt statA statB = false := by
    simp [statLt, statA, statB]
  simp [sortStats, insertStat, h]

/-- C9 amended: the presented list is a permutation of the input sorted by
descending rate with ties broken by descending present count (adjacent
entries always satisfy that preorder); no department-name tie-break is
applied — fully tied entries keep their input order (stable sort), as the
counterexample shows. -/
theorem c9_sorted_rate_present
    (l : List OfficeStat) :
    (sortStats l).Perm l ∧
    (sortStats l).Pairwise (fun a b => statLt b a = false) ∧
    (∀ a b : OfficeStat, statLt b a = false ↔
      (b.dept_rate < a.dept_rate ∨
       (a.dept_rate = b.dept_rate ∧ b.dept_present ≤ a.dept_present))) := by
  refine ⟨?_, ?_, ?_⟩
  · induction l with
    | nil => simp [sortStats]
    | cons x xs ih =>
        have : sortStats (x :: xs) = insertStat x (sortStats xs) := rfl
        rw [this]
        exact (insertStat_perm x (sortStats xs)).trans (ih.cons x)
  · induction l with
    | nil => simp [sortStats]
    | cons x xs ih =>
        have : sortStats (x :: xs) = insertStat x (sortStats xs) := rfl
        rw [this]
        exact insertStat_sorted x (sortStats xs) ih
  · intro a b
    simp only [statLt, Bool.or_eq_false_iff, Bool.and_eq_false_iff,
      decide_eq_false_iff_not, not_lt]
    constructor
    · rintro ⟨hr, h⟩
      rcases lt_or_eq_of_le hr with hlt | heq
      · exact Or.inl hlt
      · rcases h with h | h
        · exact absurd heq.symm h
        · exact Or.inr ⟨heq.symm, h⟩
    · rintro (h | ⟨heq, hp⟩)
      · exact ⟨le_of_lt h, Or.inl (ne_of_gt h)⟩
      · exact ⟨le_of_eq heq.symm, Or.inr hp⟩

end LguAttendance
